import Mathlib

/-!
Verification development for the ERWaitTimes capture pipeline.

The definitions below are a shallow embedding of the Python sources
`capture_er_wait_data.py` and `send_sms.py` (and the behaviorally identical
extractor in `AWSLambdaCapture/capture_er_wait_data.py`):

* HTML nodes are modelled by what the code reads out of them: a hospital-name
  node by the optional string `hospital.find("a").contents[0]` (absent when that
  expression raises), a wait-time node by the list of `.string` values of its
  `<strong>` children.
* Python `dict` construction and `{**a, **b}` merging are modelled by an
  association list with Python's insertion semantics (an existing key keeps its
  position and gets the new value; a new key is appended).
* `print` logging is omitted; the SMS side channel is modelled explicitly where
  a claim is about it (`send_sms`, `sms_exception_message`).
* Wall-clock times for the SMS throttle are modelled as integer minutes;
  `timedelta(days=1)` is `1440` minutes.
-/

namespace ERWait

/-- A value stored in an observation record: the timestamp string, a wait time
in minutes (a Python `int`), or Python `None`. -/
inductive Value where
  | str (s : String)
  | num (n : Int)
  | null
deriving DecidableEq

/-- A field key of an observation.  Python allows `None` as a dict key, which the
extractor produces when hospital-name extraction fails, so keys are optional
strings (`none` is the Python `None` key). -/
abbrev Key := Option String

/-- An observation record: a Python dict as an insertion-ordered association list. -/
abbrev Observation := List (Key × Value)

/-- A `hospitalName` node, modelled by the text the code extracts from it:
`hospital.find("a").contents[0]` when that succeeds and is a string, `none` when
any step of that expression raises. -/
structure HospitalNode where
  nameText : Option String
deriving DecidableEq

/-- A `wt-times` node, modelled by the `.string` values of its `<strong>`
children (`none` for a tag whose `.string` is Python `None`). -/
structure WaitNode where
  strongTags : List (Option String)
deriving DecidableEq

/-- A `cityContent-<city>` div: the ordered `hospitalName` nodes and the ordered
`wt-times` nodes found inside it. -/
structure CityDiv where
  hospitalDivs : List HospitalNode
  waitDivs : List WaitNode
deriving DecidableEq

/-- A parsed document, as the association of div class names to city divs;
`doc.find("div", class_=c)` returns the first div with class `c`, or none. -/
abbrev Doc := List (String × CityDiv)

/-- Polling interval in seconds (`POLLING_INTERVAL = 3600` in the source). -/
def POLLING_INTERVAL : Nat := 3600

/-- Minutes per hour constant from the source. -/
def MINUTES_PER_HOUR : Int := 60

/-- Digits-to-number accumulator for the `int()` model. -/
def digitsToNat (l : List Char) : Nat :=
  l.foldl (fun acc c => acc * 10 + (c.toNat - '0'.toNat)) 0

/-- Nonempty all-digit character list to a number, else failure. -/
def parseDigits (l : List Char) : Option Nat :=
  if l.isEmpty then none
  else if l.all Char.isDigit then some (digitsToNat l)
  else none

/-- Model of Python `int(s)` on a string: an optional sign followed by one or
more digits parses, anything else raises (returns `none`).  (Python also strips
surrounding whitespace and allows digit-group underscores; those inputs do not
arise in any claim.) -/
def pyInt (s : String) : Option Int :=
  match s.data with
  | '-' :: rest => (parseDigits rest).map (fun n => -(n : Int))
  | '+' :: rest => (parseDigits rest).map (fun n => (n : Int))
  | l => (parseDigits l).map (fun n => (n : Int))

/-- Model of Python `int(x)` where `x` is `tag.string`, an optional string:
`int(None)` raises `TypeError`. -/
def pyIntOf (o : Option String) : Option Int :=
  o.bind pyInt

/-- Hospital-name sanitization: `name.replace('.', '*')` from the source.
Since the pattern is a single character this is a character map. -/
def sanitize (s : String) : String :=
  ⟨s.data.map (fun c => if c = '.' then '*' else c)⟩

/-- Python dict insertion: an existing key keeps its position and receives the
new value; a new key is appended at the end. -/
def pyDictInsert {K V : Type} [DecidableEq K] (d : List (K × V)) (k : K) (v : V) :
    List (K × V) :=
  if k ∈ d.map Prod.fst then
    d.map (fun p => if p.1 = k then (k, v) else p)
  else d ++ [(k, v)]

/-- Insert a sequence of pairs into a dict in order; this is both Python dict
construction from pairs (starting from `[]`) and `{**a, **b}` merging
(starting from `a` with the pairs of `b`). -/
def pyDictExtend {K V : Type} [DecidableEq K] (d ps : List (K × V)) : List (K × V) :=
  ps.foldl (fun acc p => pyDictInsert acc p.1 p.2) d

/-- Python `dict(pairs)`. -/
def pyDict {K V : Type} [DecidableEq K] (ps : List (K × V)) : List (K × V) :=
  pyDictExtend [] ps

/-- Model of Python `str.lower()` as a character map (the city names involved
are ASCII). -/
def pyLower (s : String) : String :=
  ⟨s.data.map Char.toLower⟩

/-- `_get_div_city`: `doc.find("div", class_=f"cityContent-{self.city.lower()}")`. -/
def getDivCity (city : String) (doc : Doc) : Option CityDiv :=
  doc.lookup ("cityContent-" ++ pyLower city)

/-- The wait value the loop body records for one hospital whose name extraction
succeeded: with exactly two `<strong>` tags both parsing as ints it is
`hours * MINUTES_PER_HOUR + minutes`; with any other tag count, or a tag whose
text does not parse (the caught exception branch), it is Python `None`. -/
def waitOfBlock (w : WaitNode) : Option Int :=
  match w.strongTags with
  | [a, b] =>
    match pyIntOf a, pyIntOf b with
    | some hours_wait, some minutes_wait =>
      some (hours_wait * MINUTES_PER_HOUR + minutes_wait)
    | _, _ => none
  | _ => none

/-- The extraction loop of `_get_wait_data` (lines 92-122): builds the
`hospitals` and `wait_times` lists, one entry each per zipped pair.  When name
extraction fails the caught-exception branch appends `None` to both lists and
continues; otherwise the sanitized name is appended and the wait-time block is
inspected per `waitOfBlock`.  The `print` and SMS side effects of the exception
branches do not affect the two lists and are modelled separately. -/
def extractLoop : List (HospitalNode × WaitNode) → List Key × List (Option Int)
  | [] => ([], [])
  | (hospital, wait_time) :: rest =>
    let r := extractLoop rest
    match hospital.nameText with
    | none => (none :: r.1, none :: r.2)
    | some nm => (some (sanitize nm) :: r.1, waitOfBlock wait_time :: r.2)

/-- A recorded wait becomes a stored value: `None` is stored as null. -/
def valueOfWait : Option Int → Value
  | some n => .num n
  | none => .null

/-- `_get_wait_data`: locate the city div (a missing div makes
`div_city.find_all` raise `AttributeError`, modelled as `none`), run the
extraction loop over the positional zip of hospital-name and wait-time nodes,
build `wait_data = dict(zip(hospitals, wait_times))`, and return
`{**{"time_stamp": now}, **wait_data}`. -/
def getWaitData (city : String) (doc : Doc) (now : String) : Option Observation :=
  match getDivCity city doc with
  | none => none
  | some div_city =>
    let r := extractLoop (div_city.hospitalDivs.zip div_city.waitDivs)
    let wait_data := pyDict (r.1.zip (r.2.map valueOfWait))
    some (pyDictExtend [(some "time_stamp", Value.str now)] wait_data)

/-- `send_sms` from `send_sms.py`, over times in integer minutes.  Returns
whether an external dispatch was attempted (`last_sms_time` absent or more than
`timedelta(days=1)` in the past; a Twilio error inside the attempt is caught and
still counts as an attempt) paired with the function's return value, which in
the source is `now` on every path. -/
def send_sms (now : Int) (last_sms_time : Option Int) : Bool × Int :=
  match last_sms_time with
  | none => (true, now)
  | some t => (decide (now - t > 1440), now)

/-- `sms_exception_message`: prints, calls `send_sms`, prints its result, and
falls off the end of the function — so its return value is Python `None`.
Result: (dispatch attempted?, returned value). -/
def sms_exception_message (now : Int) (last_sms_time : Option Int) :
    Bool × Option Int :=
  ((send_sms now last_sms_time).1, none)

/-- The pipeline's exception paths thread the throttle state through
`LAST_SMS_TIME = sms_exception_message(msg, e, LAST_SMS_TIME)`, starting from
`LAST_SMS_TIME = None`.  Given the times of a sequence of failure events, this
returns how many external dispatch attempts occur. -/
def pipelineDispatchCount (events : List Int) : Nat :=
  (events.foldl
    (fun st now =>
      let r := sms_exception_message now st.1
      (r.2, st.2 + (if r.1 then 1 else 0)))
    ((none : Option Int), 0)).2

/-- Outcome of the fetch step (`_run_driver`): a parsed page, or a raised error. -/
inductive FetchOutcome where
  | success (page : Doc)
  | failure
deriving DecidableEq

/-- Outcome of the document-store insert inside `_write_db`'s `try`. -/
inductive DbOutcome where
  | success
  | failure
deriving DecidableEq

/-- How one iteration of `capture_data`'s `while True` loop ends. -/
inductive CycleResult where
  /-- A caught fetch/parse failure: notified via `sms_exception_message`,
  sleeps `sleepSecs`, and `continue`s to the next cycle. -/
  | notifyAndRetry (sleepSecs : Nat)
  /-- Normal completion: `wrote` is the observation the db insert stored (none
  when the insert raised), `dbFailNotified` is whether `_write_db`'s handler
  notified, and the cycle ends with the end-of-cycle sleep of `sleepSecs`. -/
  | completeAndSleep (wrote : Option Observation) (dbFailNotified : Bool) (sleepSecs : Nat)
  /-- An exception escaped `capture_data`: the poller thread terminates. -/
  | threadCrash
deriving DecidableEq

/-- One iteration of `ErWait.capture_data` (lines 184-225).  Fetch and parse
failures are caught, notified and lead to a full-interval sleep then retry.
`_get_wait_data` is called outside any `try`: when the city div is missing its
`AttributeError` escapes and the thread crashes.  `_write_db` catches every
insert error, notifies, and does not re-raise, after which the cycle reaches the
normal end-of-cycle sleep. -/
def captureCycleStep (city : String) (fetch : FetchOutcome) (parseFails : Bool)
    (db : DbOutcome) (now : String) : CycleResult :=
  match fetch with
  | .failure => .notifyAndRetry POLLING_INTERVAL
  | .success page =>
    if parseFails then .notifyAndRetry POLLING_INTERVAL
    else
      match getWaitData city page now with
      | none => .threadCrash
      | some wait_data =>
        match db with
        | .success => .completeAndSleep (some wait_data) false POLLING_INTERVAL
        | .failure => .completeAndSleep none true POLLING_INTERVAL

/-- A CSV file as its list of rows of cells. -/
structure CsvFile where
  rows : List (List String)
deriving DecidableEq

/-- How `csv` renders a header cell: a string key as itself, the Python `None`
key as the empty string. -/
def headerCell : Key → String
  | some s => s
  | none => ""

/-- How `csv` renders a stored value as a cell: ints in decimal, `None` empty. -/
def valueCell : Value → String
  | .str s => s
  | .num n => toString n
  | .null => ""

/-- One `DictWriter` data row: each field name looked up in the record
(`restval` renders a missing field as the empty string). -/
def csvRow (fields : List Key) (data : Observation) : List String :=
  fields.map (fun k => match data.lookup k with
    | some v => valueCell v
    | none => "")

/-- `_write_csv`: `fields = list(data.keys())`; when the target file does not
exist, write the header row then the data row; otherwise append the data row. -/
def write_csv (file : Option CsvFile) (data : Observation) : CsvFile :=
  let fields := data.map Prod.fst
  match file with
  | none => ⟨[fields.map headerCell, csvRow fields data]⟩
  | some f => ⟨f.rows ++ [csvRow fields data]⟩

/-! ### Dictionary lemmas -/

theorem pyDictInsert_of_not_mem {K V : Type} [DecidableEq K] {d : List (K × V)}
    {k : K} {v : V} (h : k ∉ d.map Prod.fst) :
    pyDictInsert d k v = d ++ [(k, v)] := by
  simp [pyDictInsert, h]

theorem pyDictExtend_nil {K V : Type} [DecidableEq K] (d : List (K × V)) :
    pyDictExtend d [] = d := rfl

theorem pyDictExtend_cons {K V : Type} [DecidableEq K] (d : List (K × V))
    (p : K × V) (ps : List (K × V)) :
    pyDictExtend d (p :: ps) = pyDictExtend (pyDictInsert d p.1 p.2) ps := rfl

theorem pyDictExtend_of_nodup {K V : Type} [DecidableEq K] :
    ∀ (ps d : List (K × V)), ((d ++ ps).map Prod.fst).Nodup →
      pyDictExtend d ps = d ++ ps
  | [], d, _ => by simp [pyDictExtend]
  | p :: ps, d, h => by
    have hmap : ((d ++ p :: ps).map Prod.fst) =
        d.map Prod.fst ++ p.1 :: ps.map Prod.fst := by simp
    rw [hmap] at h
    rcases List.nodup_append.1 h with ⟨h1, h2, hdisj⟩
    have hk : p.1 ∉ d.map Prod.fst := by
      intro hmem
      exact hdisj hmem (List.mem_cons_self _ _)
    rw [pyDictExtend_cons, pyDictInsert_of_not_mem hk,
      pyDictExtend_of_nodup ps (d ++ [p]) (by simpa using h)]
    simp

theorem pyDictInsert_head {K V : Type} [DecidableEq K] (d : List (K × V))
    (k0 : K) (v0 : V) (k : K) (v : V) :
    ∃ w d', pyDictInsert ((k0, v0) :: d) k v = (k0, w) :: d' := by
  unfold pyDictInsert
  by_cases hk : k ∈ ((k0, v0) :: d).map Prod.fst
  · rw [if_pos hk, List.map_cons]
    by_cases h0 : k0 = k
    · exact ⟨v, List.map (fun p => if p.1 = k then (k, v) else p) d, by simp [h0]⟩
    · exact ⟨v0, List.map (fun p => if p.1 = k then (k, v) else p) d, by simp [h0]⟩
  · rw [if_neg hk, List.cons_append]
    exact ⟨v0, d ++ [(k, v)], rfl⟩

theorem pyDictExtend_head {K V : Type} [DecidableEq K] :
    ∀ (ps d : List (K × V)) (k0 : K) (v0 : V),
      ∃ w d', pyDictExtend ((k0, v0) :: d) ps = (k0, w) :: d'
  | [], d, k0, v0 => ⟨v0, d, rfl⟩
  | p :: ps, d, k0, v0 => by
    obtain ⟨w, d', hw⟩ := pyDictInsert_head d k0 v0 p.1 p.2
    rw [pyDictExtend_cons, hw]
    exact pyDictExtend_head ps d' k0 w

theorem mem_keys_pyDictInsert {K V : Type} [DecidableEq K] {d : List (K × V)}
    {k : K} {v : V} {x : K} (h : x ∈ (pyDictInsert d k v).map Prod.fst) :
    x ∈ d.map Prod.fst ∨ x = k := by
  unfold pyDictInsert at h
  split at h
  · rcases List.mem_map.1 h with ⟨q, hq, hx⟩
    rcases List.mem_map.1 hq with ⟨p, hp, hpq⟩
    by_cases hpk : p.1 = k
    · right
      rw [← hx, ← hpq]
      simp [hpk]
    · left
      rw [← hx, ← hpq]
      simp only [hpk, if_false]
      exact List.mem_map.2 ⟨p, hp, rfl⟩
  · rcases List.mem_map.1 h with ⟨p, hp, hx⟩
    rcases List.mem_append.1 hp with hp | hp
    · exact Or.inl (hx ▸ List.mem_map.2 ⟨p, hp, rfl⟩)
    · right
      rw [← hx]
      simp only [List.mem_singleton] at hp
      rw [hp]

theorem mem_keys_pyDictExtend {K V : Type} [DecidableEq K] :
    ∀ (ps d : List (K × V)) (x : K),
      x ∈ (pyDictExtend d ps).map Prod.fst →
      x ∈ d.map Prod.fst ∨ x ∈ ps.map Prod.fst
  | [], _, _, h => Or.inl h
  | p :: ps, d, x, h => by
    rw [pyDictExtend_cons] at h
    rcases mem_keys_pyDictExtend ps (pyDictInsert d p.1 p.2) x h with h' | h'
    · rcases mem_keys_pyDictInsert h' with h'' | h''
      · exact Or.inl h''
      · exact Or.inr (by simp [h''])
    · exact Or.inr (by simp [h'])

theorem length_pyDictInsert_le {K V : Type} [DecidableEq K]
    (d : List (K × V)) (k : K) (v : V) :
    (pyDictInsert d k v).length ≤ d.length + 1 := by
  unfold pyDictInsert
  split
  · simp only [List.length_map]
    omega
  · simp

theorem length_pyDictExtend_le {K V : Type} [DecidableEq K] :
    ∀ (ps d : List (K × V)), (pyDictExtend d ps).length ≤ d.length + ps.length
  | [], d => by simp [pyDictExtend]
  | p :: ps, d => by
    rw [pyDictExtend_cons]
    calc (pyDictExtend (pyDictInsert d p.1 p.2) ps).length
        ≤ (pyDictInsert d p.1 p.2).length + ps.length :=
          length_pyDictExtend_le ps _
      _ ≤ (d.length + 1) + ps.length := by
          have := length_pyDictInsert_le d p.1 p.2
          omega
      _ = d.length + (p :: ps).length := by
          simp only [List.length_cons]
          omega

/-! ### Extraction-loop lemmas -/

theorem extractLoop_nil : extractLoop [] = ([], []) := rfl

theorem extractLoop_cons_none (w : WaitNode) (rest : List (HospitalNode × WaitNode)) :
    extractLoop ((⟨none⟩, w) :: rest)
      = (none :: (extractLoop rest).1, none :: (extractLoop rest).2) := rfl

theorem extractLoop_cons_some (nm : String) (w : WaitNode)
    (rest : List (HospitalNode × WaitNode)) :
    extractLoop ((⟨some nm⟩, w) :: rest)
      = (some (sanitize nm) :: (extractLoop rest).1,
         waitOfBlock w :: (extractLoop rest).2) := rfl

theorem extractLoop_lengths : ∀ L : List (HospitalNode × WaitNode),
    (extractLoop L).1.length = L.length ∧ (extractLoop L).2.length = L.length
  | [] => ⟨rfl, rfl⟩
  | (h, w) :: rest => by
    obtain ⟨h1, h2⟩ := extractLoop_lengths rest
    obtain ⟨nm⟩ := h
    cases nm with
    | none => simp [extractLoop_cons_none, h1, h2]
    | some nm => simp [extractLoop_cons_some, h1, h2]

theorem extractLoop_keys : ∀ (L : List (HospitalNode × WaitNode)) (x : Key),
    x ∈ (extractLoop L).1 →
    x = none ∨ ∃ p ∈ L, ∃ nm, p.1.nameText = some nm ∧ x = some (sanitize nm)
  | [], _, h => absurd h (by simp [extractLoop_nil])
  | (hn, w) :: rest, x, h => by
    obtain ⟨nm⟩ := hn
    cases nm with
    | none =>
      rw [extractLoop_cons_none] at h
      rcases List.mem_cons.1 h with h | h
      · exact Or.inl h
      · rcases extractLoop_keys rest x h with h' | ⟨p, hp, nm, hnm, hx⟩
        · exact Or.inl h'
        · exact Or.inr ⟨p, List.mem_cons_of_mem _ hp, nm, hnm, hx⟩
    | some nm =>
      rw [extractLoop_cons_some] at h
      rcases List.mem_cons.1 h with h | h
      · exact Or.inr ⟨(⟨some nm⟩, w), List.mem_cons_self _ _, nm, rfl, h⟩
      · rcases extractLoop_keys rest x h with h' | ⟨p, hp, nm', hnm, hx⟩
        · exact Or.inl h'
        · exact Or.inr ⟨p, List.mem_cons_of_mem _ hp, nm', hnm, hx⟩

/-! ### Synthetic documents -/

/-- A document holding exactly the given div under the city's derived selector. -/
def docOf (city : String) (div : CityDiv) : Doc :=
  [("cityContent-" ++ pyLower city, div)]

/-- One well-formed synthetic hospital entry: a hospital-name node whose display
text is `name`, positionally paired with a wait-time block holding exactly the
two sub-element texts `hStr` and `mStr`, which parse as `hours` and `minutes`. -/
structure GoodRow where
  name : String
  hStr : String
  mStr : String
  hours : Int
  minutes : Int
deriving DecidableEq

/-- The node pair a `GoodRow` denotes. -/
def rowNodes (r : GoodRow) : HospitalNode × WaitNode :=
  (⟨some r.name⟩, ⟨[some r.hStr, some r.mStr]⟩)

/-- The city div a list of `GoodRow`s denotes. -/
def divOfRows (rows : List GoodRow) : CityDiv :=
  ⟨rows.map (fun r => ⟨some r.name⟩), rows.map (fun r => ⟨[some r.hStr, some r.mStr]⟩)⟩

theorem getDivCity_docOf (city : String) (div : CityDiv) :
    getDivCity city (docOf city div) = some div := by
  simp [getDivCity, docOf, List.lookup]

theorem extractLoop_goodRows : ∀ rows : List GoodRow,
    (∀ r ∈ rows, pyInt r.hStr = some r.hours ∧ pyInt r.mStr = some r.minutes) →
    extractLoop (rows.map rowNodes)
      = (rows.map (fun r => some (sanitize r.name)),
         rows.map (fun r => some (r.hours * 60 + r.minutes)))
  | [], _ => rfl
  | r :: rows, h => by
    have hr := h r (List.mem_cons_self _ _)
    have ih := extractLoop_goodRows rows (fun q hq => h q (List.mem_cons_of_mem _ hq))
    have hw : waitOfBlock ⟨[some r.hStr, some r.mStr]⟩
        = some (r.hours * 60 + r.minutes) := by
      simp [waitOfBlock, pyIntOf, hr.1, hr.2, MINUTES_PER_HOUR]
    simp only [List.map_cons, rowNodes]
    rw [extractLoop_cons_some, ih, hw]

/-- C3 (extraction correctness on well-formed input): for every synthetic
document whose city section pairs hospital names H1..Hn with wait-time blocks of
exactly two numeric sub-elements, the extractor's output is exactly the
`time_stamp` entry followed by one entry per hospital mapping its (sanitized)
name to `hours * 60 + minutes`, in order, with no extra keys.  (The sanitized
names are assumed pairwise distinct and distinct from the `time_stamp` field
name, as they are for real hospital listings.) -/
theorem extraction_correct_on_good_doc (city now : String) (rows : List GoodRow)
    (hparse : ∀ r ∈ rows, pyInt r.hStr = some r.hours ∧ pyInt r.mStr = some r.minutes)
    (hnodup : (rows.map (fun r => sanitize r.name)).Nodup)
    (hts : ∀ r ∈ rows, sanitize r.name ≠ "time_stamp") :
    getWaitData city (docOf city (divOfRows rows)) now
      = some ((some "time_stamp", Value.str now)
          :: rows.map (fun r =>
              (some (sanitize r.name), Value.num (r.hours * 60 + r.minutes)))) := by
  have hzip : (divOfRows rows).hospitalDivs.zip (divOfRows rows).waitDivs
      = rows.map rowNodes := by
    simp only [divOfRows]
    rw [List.zip_map']
    rfl
  have hkeys : (rows.map (fun r => (some (sanitize r.name) : Key))).Nodup := by
    have h : (rows.map (fun r => sanitize r.name)).map some
        = rows.map (fun r => (some (sanitize r.name) : Key)) := by
      rw [List.map_map]
      rfl
    rw [← h]
    exact hnodup.map (Option.some_injective String)
  have hvals : (rows.map (fun r => some (r.hours * 60 + r.minutes))).map valueOfWait
      = rows.map (fun r => Value.num (r.hours * 60 + r.minutes)) := by
    rw [List.map_map]
    rfl
  have hzip2 : (rows.map (fun r => (some (sanitize r.name) : Key))).zip
        (rows.map (fun r => Value.num (r.hours * 60 + r.minutes)))
      = rows.map (fun r =>
          ((some (sanitize r.name) : Key), Value.num (r.hours * 60 + r.minutes))) := by
    rw [List.zip_map']
  have hpskeys : (rows.map (fun r =>
        ((some (sanitize r.name) : Key), Value.num (r.hours * 60 + r.minutes)))).map Prod.fst
      = rows.map (fun r => (some (sanitize r.name) : Key)) := by
    rw [List.map_map]
    rfl
  have hdict : pyDict (rows.map (fun r =>
        ((some (sanitize r.name) : Key), Value.num (r.hours * 60 + r.minutes))))
      = rows.map (fun r =>
          ((some (sanitize r.name) : Key), Value.num (r.hours * 60 + r.minutes))) := by
    unfold pyDict
    have hnd : ((([] : Observation) ++ rows.map (fun r =>
        ((some (sanitize r.name) : Key),
          Value.num (r.hours * 60 + r.minutes)))).map Prod.fst).Nodup := by
      rw [List.nil_append, hpskeys]
      exact hkeys
    rw [pyDictExtend_of_nodup _ _ hnd, List.nil_append]
  have hnotmem : (some "time_stamp" : Key)
      ∉ rows.map (fun r => (some (sanitize r.name) : Key)) := by
    intro hmem
    rcases List.mem_map.1 hmem with ⟨r, hrmem, hreq⟩
    exact hts r hrmem (Option.some_injective String hreq)
  have hext : pyDictExtend [((some "time_stamp" : Key), Value.str now)]
        (rows.map (fun r =>
          ((some (sanitize r.name) : Key), Value.num (r.hours * 60 + r.minutes))))
      = ((some "time_stamp" : Key), Value.str now)
          :: rows.map (fun r =>
            ((some (sanitize r.name) : Key), Value.num (r.hours * 60 + r.minutes))) := by
    have hnd : (([((some "time_stamp" : Key), Value.str now)] ++ rows.map (fun r =>
        ((some (sanitize r.name) : Key),
          Value.num (r.hours * 60 + r.minutes)))).map Prod.fst).Nodup := by
      rw [List.singleton_append, List.map_cons, hpskeys]
      exact List.nodup_cons.2 ⟨hnotmem, hkeys⟩
    rw [pyDictExtend_of_nodup _ _ hnd, List.singleton_append]
  simp only [getWaitData, getDivCity_docOf, hzip, extractLoop_goodRows rows hparse,
    hvals, hzip2, hdict, hext]

/-- C3 witness: the theorem evaluated on a two-hospital Calgary document. -/
theorem extraction_correct_on_good_doc_witness :
    getWaitData "Calgary"
        (docOf "Calgary" (divOfRows
          [⟨"Foothills Medical Centre", "2", "15", 2, 15⟩,
           ⟨"Rockyview General Hospital", "0", "40", 0, 40⟩])) "Mon Jan 01 2024 - 12:00:00"
      = some [(some "time_stamp", Value.str "Mon Jan 01 2024 - 12:00:00"),
              (some "Foothills Medical Centre", Value.num 135),
              (some "Rockyview General Hospital", Value.num 40)] := by
  rw [extraction_correct_on_good_doc "Calgary" "Mon Jan 01 2024 - 12:00:00"
    [⟨"Foothills Medical Centre", "2", "15", 2, 15⟩,
     ⟨"Rockyview General Hospital", "0", "40", 0, 40⟩]
    (by decide) (by decide) (by decide)]
  decide

/-! ### Remaining claims -/

/-- C4 (malformed wait-time blocks are local, not fatal): a wait-time block
whose `<strong>` count differs from two records no wait value, and whenever a
block records no value (wrong count, or exactly two sub-elements whose text does
not parse as ints) the extractor stores the unknown marker for that hospital and
the processing of every subsequent hospital is exactly the processing of the
remaining list — no error is raised (the extraction function is total). -/
theorem malformed_block_local (nm : String) (w : WaitNode)
    (rest : List (HospitalNode × WaitNode)) :
    (w.strongTags.length ≠ 2 → waitOfBlock w = none)
    ∧ (waitOfBlock w = none →
        extractLoop ((⟨some nm⟩, w) :: rest)
          = (some (sanitize nm) :: (extractLoop rest).1,
             none :: (extractLoop rest).2)) := by
  constructor
  · intro hlen
    obtain ⟨tags⟩ := w
    rcases tags with _ | ⟨a, tags⟩
    · rfl
    rcases tags with _ | ⟨b, tags⟩
    · rfl
    rcases tags with _ | ⟨c, tags⟩
    · exact absurd rfl hlen
    · rfl
  · intro hmal
    rw [extractLoop_cons_some, hmal]

/-- C4 witness: an empty block (zero sub-elements) for hospital B yields the
unknown marker and leaves the following hospital A's extraction intact. -/
theorem malformed_block_local_witness :
    ((⟨[]⟩ : WaitNode).strongTags.length ≠ 2)
    ∧ extractLoop [(⟨some "B"⟩, ⟨[]⟩), (⟨some "A"⟩, ⟨[some "1", some "30"]⟩)]
        = ([some "B", some "A"], [none, some 90]) := by
  refine ⟨by decide, ?_⟩
  rw [(malformed_block_local "B" ⟨[]⟩ [(⟨some "A"⟩, ⟨[some "1", some "30"]⟩)]).2
    ((malformed_block_local "B" ⟨[]⟩ [(⟨some "A"⟩, ⟨[some "1", some "30"]⟩)]).1 (by decide))]
  decide

/-- Character-map helper: a list with no `.` characters is unchanged by the
dot-to-star replacement. -/
theorem sanitize_no_dot : ∀ l : List Char, (∀ c ∈ l, c ≠ '.') →
    l.map (fun c => if c = '.' then '*' else c) = l
  | [], _ => rfl
  | c :: l, h => by
    have hc : c ≠ '.' := h c (List.mem_cons_self _ _)
    simp only [List.map_cons, if_neg hc]
    rw [sanitize_no_dot l (fun d hd => h d (List.mem_cons_of_mem _ hd))]

/-- C7 (hospital-name sanitization): the key the extractor records for a
hospital whose display text is `nm` is `sanitize nm`; `.` becomes `*` so that
"Sheldon M. Chumir Centre" is keyed "Sheldon M* Chumir Centre"; and a name
without `.` is used unchanged. -/
theorem hospital_name_sanitization (nm : String) (w : WaitNode)
    (rest : List (HospitalNode × WaitNode)) :
    ((extractLoop ((⟨some nm⟩, w) :: rest)).1.head? = some (some (sanitize nm)))
    ∧ sanitize "Sheldon M. Chumir Centre" = "Sheldon M* Chumir Centre"
    ∧ ((∀ c ∈ nm.data, c ≠ '.') → sanitize nm = nm) := by
  refine ⟨?_, by decide, ?_⟩
  · rw [extractLoop_cons_some]
    rfl
  · intro h
    unfold sanitize
    rw [sanitize_no_dot nm.data h]

/-- C7 witness: the Sheldon M. Chumir name is keyed with `*`, and a dotless
name is keyed unchanged. -/
theorem hospital_name_sanitization_witness :
    ((extractLoop [((⟨some "Sheldon M. Chumir Centre"⟩ : HospitalNode),
        (⟨[]⟩ : WaitNode))]).1.head? = some (some "Sheldon M* Chumir Centre"))
    ∧ sanitize "Rockyview General Hospital" = "Rockyview General Hospital" := by
  constructor
  · rw [(hospital_name_sanitization "Sheldon M. Chumir Centre" ⟨[]⟩ []).1]
    decide
  · exact (hospital_name_sanitization "Rockyview General Hospital" ⟨[]⟩ []).2.2 (by decide)

/-- C10 (length-mismatch truncation): the extraction loop runs over the
positional zip, so it processes exactly `min m n` pairs (both produced lists
have that length, the trailing nodes of the longer list are ignored and no
error is raised), and the resulting observation has at most `min m n` hospital
entries besides the timestamp. -/
theorem length_mismatch_truncation (city now : String) (div : CityDiv)
    (obs : Observation)
    (hobs : getWaitData city (docOf city div) now = some obs) :
    (extractLoop (div.hospitalDivs.zip div.waitDivs)).1.length
        = min div.hospitalDivs.length div.waitDivs.length
    ∧ (extractLoop (div.hospitalDivs.zip div.waitDivs)).2.length
        = min div.hospitalDivs.length div.waitDivs.length
    ∧ obs.length ≤ min div.hospitalDivs.length div.waitDivs.length + 1 := by
  obtain ⟨h1, h2⟩ := extractLoop_lengths (div.hospitalDivs.zip div.waitDivs)
  have hzl : (div.hospitalDivs.zip div.waitDivs).length
      = min div.hospitalDivs.length div.waitDivs.length := List.length_zip _ _
  refine ⟨by rw [h1, hzl], by rw [h2, hzl], ?_⟩
  simp only [getWaitData, getDivCity_docOf] at hobs
  have hobs' := Option.some.inj hobs
  rw [← hobs']
  have hkv : ((extractLoop (div.hospitalDivs.zip div.waitDivs)).1.zip
      ((extractLoop (div.hospitalDivs.zip div.waitDivs)).2.map valueOfWait)).length
      = min div.hospitalDivs.length div.waitDivs.length := by
    rw [List.length_zip, List.length_map, h1, h2, hzl, min_self]
  have hb2 := length_pyDictExtend_le
    ((extractLoop (div.hospitalDivs.zip div.waitDivs)).1.zip
      ((extractLoop (div.hospitalDivs.zip div.waitDivs)).2.map valueOfWait))
    ([] : Observation)
  have hb1 := length_pyDictExtend_le
    (pyDict ((extractLoop (div.hospitalDivs.zip div.waitDivs)).1.zip
      ((extractLoop (div.hospitalDivs.zip div.waitDivs)).2.map valueOfWait)))
    [((some "time_stamp" : Key), Value.str now)]
  simp only [pyDict] at hb1 ⊢
  simp only [List.length_nil, List.length_singleton] at hb1 hb2
  omega

/-- C10 witness: two hospital nodes against one wait-time node — exactly one
pair is processed and the observation has one hospital entry. -/
theorem length_mismatch_truncation_witness :
    (extractLoop ((⟨[⟨some "A"⟩, ⟨some "B"⟩],
        [⟨[some "1", some "0"]⟩]⟩ : CityDiv).hospitalDivs.zip
        (⟨[⟨some "A"⟩, ⟨some "B"⟩], [⟨[some "1", some "0"]⟩]⟩ : CityDiv).waitDivs)).1.length
        = min 2 1
    ∧ (extractLoop ((⟨[⟨some "A"⟩, ⟨some "B"⟩],
        [⟨[some "1", some "0"]⟩]⟩ : CityDiv).hospitalDivs.zip
        (⟨[⟨some "A"⟩, ⟨some "B"⟩], [⟨[some "1", some "0"]⟩]⟩ : CityDiv).waitDivs)).2.length
        = min 2 1
    ∧ ([((some "time_stamp" : Key), Value.str "ts"),
        ((some "A" : Key), Value.num 60)] : Observation).length ≤ min 2 1 + 1 :=
  length_mismatch_truncation "Calgary" "ts"
    ⟨[⟨some "A"⟩, ⟨some "B"⟩], [⟨[some "1", some "0"]⟩]⟩
    [(some "time_stamp", Value.str "ts"), (some "A", Value.num 60)] (by decide)

/-- Is `k` the sanitized display name of a hospital node listed in the div? -/
def isListedName (div : CityDiv) (k : Key) : Bool :=
  div.hospitalDivs.any (fun h =>
    match h.nameText with
    | some nm => k == some (sanitize nm)
    | none => false)

/-- The div of the C5 counterexample: hospital A is well-formed; the second
hospital node's name extraction fails. -/
def cexDiv : CityDiv :=
  ⟨[⟨some "A"⟩, ⟨none⟩], [⟨[some "1", some "5"]⟩, ⟨[some "2", some "0"]⟩]⟩

/-- C5 counterexample: with one hospital whose name extraction fails, the
extractor's observation contains the Python `None` key — a key that is neither
the `time_stamp` field nor the sanitized display name of any listed hospital,
so a key "of another origin" does appear. -/
theorem observation_shape_cex :
    getWaitData "Calgary" (docOf "Calgary" cexDiv) "ts"
      = some [(some "time_stamp", Value.str "ts"), (some "A", Value.num 65),
              (none, Value.null)]
    ∧ ¬ (∀ k ∈ ([(some "time_stamp", Value.str "ts"), (some "A", Value.num 65),
          ((none : Key), Value.null)] : Observation).map Prod.fst,
          k = some "time_stamp" ∨ isListedName cexDiv k = true) := by
  decide

/-- C5 amended (observation shape invariant): every observation the extractor
produces has the `time_stamp` field first, and every other key is either the
sanitized display name of a hospital node listed in the city's section at
capture time or the Python `None` placeholder key recorded when a hospital's
name extraction fails. -/
theorem observation_shape_amended (city now : String) (div : CityDiv)
    (obs : Observation)
    (hobs : getWaitData city (docOf city div) now = some obs) :
    obs.head?.map Prod.fst = some (some "time_stamp")
    ∧ ∀ k ∈ obs.map Prod.fst, k ≠ some "time_stamp" →
        k = none ∨ isListedName div k = true := by
  simp only [getWaitData, getDivCity_docOf] at hobs
  have hobs' := Option.some.inj hobs
  constructor
  · obtain ⟨w, d', hw⟩ := pyDictExtend_head
      (pyDict ((extractLoop (div.hospitalDivs.zip div.waitDivs)).1.zip
        ((extractLoop (div.hospitalDivs.zip div.waitDivs)).2.map valueOfWait)))
      [] (some "time_stamp") (Value.str now)
    rw [← hobs', hw]
    rfl
  · intro k hk hne
    rw [← hobs'] at hk
    rcases mem_keys_pyDictExtend _ _ _ hk with hk' | hk'
    · exact absurd (by simpa using hk') hne
    · rcases mem_keys_pyDictExtend _ _ _ hk' with hk'' | hk''
      · exact absurd hk'' (by simp)
      · rcases List.mem_map.1 hk'' with ⟨p, hpmem, hpk⟩
        obtain ⟨a, b⟩ := p
        have ha : a ∈ (extractLoop (div.hospitalDivs.zip div.waitDivs)).1 :=
          (List.of_mem_zip hpmem).1
        rcases extractLoop_keys _ a ha with h' | ⟨q, hq, nm, hnm, hx⟩
        · exact Or.inl (hpk ▸ h')
        · refine Or.inr ?_
          obtain ⟨q1, q2⟩ := q
          have hq1 : q1 ∈ div.hospitalDivs := (List.of_mem_zip hq).1
          refine List.any_eq_true.2 ⟨q1, hq1, ?_⟩
          simp only at hnm
          rw [hnm]
          rw [← hpk, hx]
          simp

/-- C5 amended witness: the amended invariant evaluated on the counterexample
document itself. -/
theorem observation_shape_amended_witness :
    ([(some "time_stamp", Value.str "ts"), (some "A", Value.num 65),
        ((none : Key), Value.null)] : Observation).head?.map Prod.fst
      = some (some "time_stamp")
    ∧ ∀ k ∈ ([(some "time_stamp", Value.str "ts"), (some "A", Value.num 65),
        ((none : Key), Value.null)] : Observation).map Prod.fst,
        k ≠ some "time_stamp" → k = none ∨ isListedName cexDiv k = true :=
  observation_shape_amended "Calgary" "ts" cexDiv
    [(some "time_stamp", Value.str "ts"), (some "A", Value.num 65), (none, Value.null)]
    (by decide)

/-- C2 (code bug evidence): on a parsed document with no `cityContent-calgary`
node, the Calgary cycle neither notifies-and-retries nor completes: the
`AttributeError` raised by `div_city.find_all` escapes `capture_data` (the
`_get_wait_data` call is outside every `try`) and the poller thread terminates. -/
theorem missing_city_section_crashes :
    captureCycleStep "Calgary"
        (FetchOutcome.success [("cityContent-edmonton", ⟨[], []⟩)])
        false DbOutcome.success "ts" = CycleResult.threadCrash
    ∧ ∀ s : Nat, captureCycleStep "Calgary"
        (FetchOutcome.success [("cityContent-edmonton", ⟨[], []⟩)])
        false DbOutcome.success "ts" ≠ CycleResult.notifyAndRetry s := by
  have hc : captureCycleStep "Calgary"
      (FetchOutcome.success [("cityContent-edmonton", ⟨[], []⟩)])
      false DbOutcome.success "ts" = CycleResult.threadCrash := by decide
  refine ⟨hc, ?_⟩
  intro s h
  rw [hc] at h
  exact CycleResult.noConfusion h

/-- C8 (persistence failure is non-blocking): whenever extraction succeeds and
the document-store insert fails, `_write_db` catches the error and notifies,
nothing is written, no exception escapes, and the cycle ends with the normal
full-length end-of-cycle sleep (`POLLING_INTERVAL = 3600` seconds, the same
interval every path sleeps — there is no shortened retry). -/
theorem db_failure_nonblocking (city now : String) (doc : Doc) (obs : Observation)
    (hobs : getWaitData city doc now = some obs) :
    captureCycleStep city (FetchOutcome.success doc) false DbOutcome.failure now
      = CycleResult.completeAndSleep none true POLLING_INTERVAL
    ∧ POLLING_INTERVAL = 3600 := by
  refine ⟨?_, rfl⟩
  simp [captureCycleStep, hobs]

/-- C8 witness: a concrete Edmonton document with one hospital, db insert failing. -/
theorem db_failure_nonblocking_witness :
    captureCycleStep "Edmonton"
        (FetchOutcome.success (docOf "Edmonton"
          ⟨[⟨some "Peter Lougheed Centre"⟩], [⟨[some "1", some "10"]⟩]⟩))
        false DbOutcome.failure "ts"
      = CycleResult.completeAndSleep none true POLLING_INTERVAL
    ∧ POLLING_INTERVAL = 3600 :=
  db_failure_nonblocking "Edmonton" "ts"
    (docOf "Edmonton" ⟨[⟨some "Peter Lougheed Centre"⟩], [⟨[some "1", some "10"]⟩]⟩)
    [(some "time_stamp", Value.str "ts"), (some "Peter Lougheed Centre", Value.num 70)]
    (by decide)

/-- C1 (code bug evidence): threading `LAST_SMS_TIME = sms_exception_message(...)`
resets the throttle state to `None` on every failure event, so two events 10
minutes apart both attempt a dispatch (the claim allows at most one); two
events 25 hours apart also both dispatch (as the claim says). -/
theorem throttle_double_dispatch_bug :
    pipelineDispatchCount [0, 10] = 2 ∧ pipelineDispatchCount [0, 1500] = 2 := by
  decide

/-- C6 (code bug evidence): at `now = 100` minutes with a previous send at `90`
(10 minutes earlier, inside the 24-hour window) the dispatch is suppressed, yet
`send_sms` returns `now` — not the previous value `90` — and
`sms_exception_message` returns `None`, so the last-send time visible to
subsequent calls is advanced/reset rather than left at its previous value. -/
theorem send_sms_state_update_bug :
    (send_sms 100 (some 90)).1 = false
    ∧ (send_sms 100 (some 90)).2 = 100
    ∧ sms_exception_message 100 (some 90) = (false, none) := by
  decide

/-- C9 (CSV append behavior): writing three observations with an identical
field set to a sink whose file does not yet exist yields exactly one header row
(the first observation's field names, with the timestamp field first) followed
by exactly three data rows in call order. -/
theorem csv_append_behavior (o1 o2 o3 : Observation) (F : List Key)
    (h1 : o1.map Prod.fst = F) (h2 : o2.map Prod.fst = F) (h3 : o3.map Prod.fst = F)
    (hts : F.head? = some (some "time_stamp")) :
    (write_csv (some (write_csv (some (write_csv none o1)) o2)) o3).rows
      = [F.map headerCell, csvRow F o1, csvRow F o2, csvRow F o3]
    ∧ (F.map headerCell).head? = some "time_stamp" := by
  constructor
  · simp only [write_csv, h1, h2, h3]
    simp
  · cases F with
    | nil => exact absurd hts (by simp)
    | cons k F =>
      simp only [List.head?_cons, Option.some.injEq] at hts
      subst hts
      rfl

/-- C9 witness: three concrete observations over fields [time_stamp, A]. -/
theorem csv_append_behavior_witness :
    (write_csv (some (write_csv (some (write_csv none
        [(some "time_stamp", Value.str "t1"), (some "A", Value.num 30)]))
        [(some "time_stamp", Value.str "t2"), (some "A", Value.null)]))
        [(some "time_stamp", Value.str "t3"), (some "A", Value.num 45)]).rows
      = [["time_stamp", "A"], ["t1", "30"], ["t2", ""], ["t3", "45"]]
    ∧ (([some "time_stamp", some "A"] : List Key).map headerCell).head?
        = some "time_stamp" := by
  have h := csv_append_behavior
    [(some "time_stamp", Value.str "t1"), (some "A", Value.num 30)]
    [(some "time_stamp", Value.str "t2"), (some "A", Value.null)]
    [(some "time_stamp", Value.str "t3"), (some "A", Value.num 45)]
    [some "time_stamp", some "A"] rfl rfl rfl rfl
  refine ⟨?_, h.2⟩
  rw [h.1]
  decide

end ERWait
